import Mathlib

/-!
# Verification of the mistFan controller (src/src/main.cpp)

Shallow embedding of the gesture-driven mist/fan controller. Pure numeric
helpers (`calculateMaxDutyFromPrecision`, `calculateDutyFromPercent`) are
translated directly; the stateful parts (mist relay cache, fan PWM writes,
the shared timer, the timeout guard, the gesture handlers) are embedded as
explicit state passing over a `SysState` record.

The scheduler (`arduino-timer`) is an external collaborator whose source is
not part of this repository; it is modelled from the spec, section 4.1:
one-shot (`timer.in`) and repeating (`timer.every`) tasks with cancellation
by opaque handle, `cancelAll`, and a cooperative `tick` that fires every
task whose due time has elapsed, in due-time order with ties broken by
registration order, rescheduling repeating tasks to `now + interval`.
Handles are modelled as unique task ids (`nextId` is monotonic), so
cancelling a stale or nonexistent handle is a no-op, as the spec requires.

Machine integers: durations and times are `size_t` / `unsigned long` in the
source and are modelled as `Nat` (all arithmetic involved stays far below
2^32, so no wraparound is reachable in any claim). The duty computation
`(percent / 100.0) * maxDuty` converted to `uint32_t` truncates toward
zero; for integer percent in 0..100 the double-precision computation agrees
exactly with rational truncation `percent * 255 / 100` (the fractional
parts are multiples of 1/20, far larger than the double rounding error, and
the integer-valued cases round to the exact integer), so it is embedded as
exact `Nat` floor division.
-/

/-- Hardware write events (ghost trace of `digitalWrite` on the mist pin and
`ledcWrite` on a PWM channel), each stamped with the time it occurred. -/
inductive Ev : Type
  | mistWrite (b : Bool) (t : Nat)
  | pwmWrite (ch : Nat) (duty : Nat) (t : Nat)
  deriving DecidableEq, Repr

/-- The callbacks that main.cpp registers with the timer, as a closed
enumeration (the source registers exactly these function pointers). -/
inductive Callback : Type
  | mistOnFromTimer
  | mistOffFromTimer
  | mistForDurationFromTimer
  | implementTimeoutFromTimer
  | buttonTickFromTimer
  deriving DecidableEq, Repr

/-- One scheduled task of the spec-modelled timer facility: unique handle
`id`, absolute due time, repeat interval (meaningful when `repeating`),
callback tag and its opaque `void*` argument (the mist on-duration). -/
structure TimerTask : Type where
  id : Nat
  due : Nat
  interval : Nat
  repeating : Bool
  callback : Callback
  arg : Nat
  deriving DecidableEq, Repr

/-- The three physical pushbuttons. -/
inductive Button : Type
  | one
  | two
  | three
  deriving DecidableEq, Repr

/-- Gesture kinds recognized by the OneButton detector; `multiClick n`
carries `getNumberClicks()`. -/
inductive GKind : Type
  | click
  | doubleClick
  | longPressStart
  | longPressHeld
  | longPressStop
  | multiClick (n : Nat)
  deriving DecidableEq, Repr

/-- A recognized gesture: originating button plus kind. -/
structure Gesture : Type where
  btn : Button
  kind : GKind
  deriving DecidableEq, Repr

/-- Environment input for one scheduler tick: the gestures the OneButton
detectors recognize during that `buttonTick` poll, and the value
`buttonOne.isLongPressed()` would return at that moment. -/
structure Input : Type where
  gestures : List Gesture
  longPressedOne : Bool
  deriving DecidableEq, Repr

/-- A tick with no recognized gestures and button One not held. -/
def noInput : Input := ⟨[], false⟩

/-- Global program state: the `CurrentValue` mist cache, the last duty
written to the fan PWM channel (ghost view of the `ledcWrite` sink), the
timer's task set, the two stored handles `mistForDurationRepeatingTask` and
`timeoutTimerTask`, the monotonic clock, a fresh-handle counter, the ghost
write trace (most recent first), and a ghost count of timeout firings. -/
structure SysState : Type where
  mistState : Bool
  fanDuty : Nat
  tasks : List TimerTask
  mistForDurationRepeatingTask : Option Nat
  timeoutTimerTask : Option Nat
  now : Nat
  nextId : Nat
  trace : List Ev
  timeoutFirings : Nat
  deriving DecidableEq, Repr

namespace Controller

/-- Constant `settings::delays::timeout` = 2*60*60*1000 ms. -/
def timeoutWindow : Nat := 2 * 60 * 60 * 1000

/-- Constant `settings::pwm::channel::fan`. -/
def fanChannel : Nat := 1

/-- Function `calculateMaxDutyFromPrecision`: `pow(2, precision) - 1`. -/
def calculateMaxDutyFromPrecision (precision : Nat) : Nat :=
  2 ^ precision - 1

/-- Function `calculateDutyFromPercent`: `(percent / 100.0) * maxDuty`
truncated to `uint32_t`; embedded as exact floor division (see header note). -/
def calculateDutyFromPercent (percent : Nat) : Nat :=
  percent * calculateMaxDutyFromPrecision 8 / 100

/-- Function `setPwmPercent`: `ledcWrite(pwmChannel, calculateDutyFromPercent(percent))`.
The write is unconditional (no change guard, unlike the mist relay). -/
def setPwmPercent (pwmChannel : Nat) (percent : Nat) (s : SysState) : SysState :=
  let duty := calculateDutyFromPercent percent
  { s with
    fanDuty := if pwmChannel = fanChannel then duty else s.fanDuty
    trace := Ev.pwmWrite pwmChannel duty s.now :: s.trace }

/-- Function `setFanSpeedPercent`. -/
def setFanSpeedPercent (percent : Nat) (s : SysState) : SysState :=
  setPwmPercent fanChannel percent s

/-- Function `setMistState`. -/
def setMistState (b : Bool) (s : SysState) : SysState :=
  { s with mistState := b }

/-- Function `getMistState`. -/
def getMistState (s : SysState) : Bool := s.mistState

/-- Function `writeMistState`: performs `digitalWrite` and updates the cache only
when the requested boolean differs from the cached one. -/
def writeMistState (state : Bool) (s : SysState) : SysState :=
  if (state && !getMistState s) || (!state && getMistState s) then
    setMistState state { s with trace := Ev.mistWrite state s.now :: s.trace }
  else s

/-- Function `mistOn`. -/
def mistOn (s : SysState) : SysState := writeMistState true s

/-- Function `mistOff`. -/
def mistOff (s : SysState) : SysState := writeMistState false s

/-- Function `toggleMistState`. -/
def toggleMistState (s : SysState) : SysState :=
  writeMistState (!s.mistState) s

/-- Scheduler operation `timer.in(delay, cb)` with opaque argument: registers a one-shot task
due at `now + delay` and returns its handle. -/
def timerIn (delay : Nat) (cb : Callback) (arg : Nat) (s : SysState) :
    Nat × SysState :=
  (s.nextId,
   { s with
     tasks := s.tasks ++ [⟨s.nextId, s.now + delay, 0, false, cb, arg⟩]
     nextId := s.nextId + 1 })

/-- Scheduler operation `timer.every(interval, cb, arg)`: registers a repeating task whose
first firing is due at `now + interval` (the spec's scheduler waits one
full interval before the first call) and returns its handle. -/
def timerEvery (interval : Nat) (cb : Callback) (arg : Nat) (s : SysState) :
    Nat × SysState :=
  (s.nextId,
   { s with
     tasks := s.tasks ++ [⟨s.nextId, s.now + interval, interval, true, cb, arg⟩]
     nextId := s.nextId + 1 })

/-- Scheduler operation `timer.cancel(handle)`: removes the task with that handle; a `none` or
stale handle is a no-op. -/
def timerCancel (h : Option Nat) (s : SysState) : SysState :=
  match h with
  | none => s
  | some i => { s with tasks := s.tasks.filter (fun tk => tk.id ≠ i) }

/-- Scheduler operation `timer.cancel()` with no argument: cancels every outstanding task. -/
def timerCancelAll (s : SysState) : SysState :=
  { s with tasks := [] }

/-- Function `cancelMistForDurationRepeatingTask`: cancels the stored
repeating-cycle handle. -/
def cancelMistForDurationRepeatingTask (s : SysState) : SysState :=
  timerCancel s.mistForDurationRepeatingTask s

/-- Function `mistForDuration`: mist on now, one-shot mist-off after `duration`. -/
def mistForDuration (duration : Nat) (s : SysState) : SysState :=
  (timerIn duration Callback.mistOffFromTimer 0 (mistOn s)).2

/-- Function `mistForDurationRepeating`: an immediate `mistForDuration(onDuration)`,
then a repeating task with period `offDuration + onDuration` stored in the
repeating-cycle handle slot. Note: the source does NOT cancel the previous
handle before overwriting it. -/
def mistForDurationRepeating (onDuration offDuration : Nat) (s : SysState) :
    SysState :=
  let s1 := mistForDuration onDuration s
  let p := timerEvery (offDuration + onDuration)
    Callback.mistForDurationFromTimer onDuration s1
  { p.2 with mistForDurationRepeatingTask := some p.1 }

/-- Function `fanOn`: PWM channel fan to 100%. -/
def fanOn (s : SysState) : SysState := setPwmPercent fanChannel 100 s

/-- Function `fanOff`: PWM channel fan to 0%. -/
def fanOff (s : SysState) : SysState := setPwmPercent fanChannel 0 s

/-- Function `cancelAllTimerTasks`: `timer.cancel()`. -/
def cancelAllTimerTasks (s : SysState) : SysState := timerCancelAll s

/-- Function `cancelAllTimerTasksAndTurnOffMistAndFan`. -/
def cancelAllTimerTasksAndTurnOffMistAndFan (s : SysState) : SysState :=
  fanOff (mistOff (cancelAllTimerTasks s))

/-- Function `implementTimeout`: the timeout firing (ghost-counted), which cancels
all tasks and powers mist and fan down. -/
def implementTimeout (s : SysState) : SysState :=
  cancelAllTimerTasksAndTurnOffMistAndFan
    { s with timeoutFirings := s.timeoutFirings + 1 }

/-- Function `createTimeoutTimer`: one-shot timeout task at the full window, handle
stored in `timeoutTimerTask`. -/
def createTimeoutTimer (s : SysState) : SysState :=
  let p := timerIn timeoutWindow Callback.implementTimeoutFromTimer 0 s
  { p.2 with timeoutTimerTask := some p.1 }

/-- Function `resetTimeoutTimer`: cancel the stored timeout handle, then re-arm. -/
def resetTimeoutTimer (s : SysState) : SysState :=
  createTimeoutTimer (timerCancel s.timeoutTimerTask s)

/-- Button One handlers (`clickOne` .. `multiClickOne`), each beginning
with `resetTimeoutTimer` exactly as in the source. -/
def handleOne (k : GKind) (s : SysState) : SysState :=
  let s := resetTimeoutTimer s
  match k with
  | GKind.click => mistForDuration 1000 s
  | GKind.doubleClick => mistForDurationRepeating 1000 30000 s
  | GKind.longPressStart => s
  | GKind.longPressHeld => mistOn s
  | GKind.longPressStop => mistOff s
  | GKind.multiClick n =>
    if n = 3 then mistForDurationRepeating 1000 15000 s
    else if n = 4 then mistForDurationRepeating 3000 30000 s
    else if n = 5 then mistForDurationRepeating 3000 15000 s
    else s

/-- Button Two handlers (`clickTwo` .. `multiClickTwo`). -/
def handleTwo (k : GKind) (s : SysState) : SysState :=
  let s := resetTimeoutTimer s
  match k with
  | GKind.click => fanOn s
  | GKind.doubleClick => fanOff s
  | _ => s

/-- Button Three handlers (`clickThree` .. `multiClickThree`). -/
def handleThree (k : GKind) (s : SysState) : SysState :=
  let s := resetTimeoutTimer s
  match k with
  | GKind.click => cancelMistForDurationRepeatingTask s
  | GKind.doubleClick => cancelAllTimerTasksAndTurnOffMistAndFan s
  | _ => s

/-- The gesture dispatch wiring established by `buttonSetup`'s `attach*`
calls: route a recognized gesture to its per-button handler. -/
def dispatchGesture (g : Gesture) (s : SysState) : SysState :=
  match g.btn with
  | Button.one => handleOne g.kind s
  | Button.two => handleTwo g.kind s
  | Button.three => handleThree g.kind s

/-- Function `buttonTick`: polls the three detectors; in the model this dispatches
every gesture the environment reports as recognized during this poll. -/
def buttonTick (inp : Input) (s : SysState) : SysState :=
  inp.gestures.foldl (fun s g => dispatchGesture g s) s

/-- Interpretation of a fired callback. `mistForDurationFromTimer` skips
its pulse entirely when `buttonOne.isLongPressed()`. -/
def runCallback (inp : Input) (cb : Callback) (arg : Nat) (s : SysState) :
    SysState :=
  match cb with
  | Callback.mistOnFromTimer => mistOn s
  | Callback.mistOffFromTimer => mistOff s
  | Callback.mistForDurationFromTimer =>
    if inp.longPressedOne then s else mistForDuration arg s
  | Callback.implementTimeoutFromTimer => implementTimeout s
  | Callback.buttonTickFromTimer => buttonTick inp s

/-- Strict order on tasks by (due time, registration id): the spec's firing
order within a tick. -/
def taskLt (a b : TimerTask) : Bool :=
  a.due < b.due || (a.due == b.due && a.id < b.id)

/-- The least, by `taskLt`, task of the current set whose id is in the
still-unfired due set; `none` when no such task remains. -/
def pickMin (dueIds : List Nat) (tasks : List TimerTask) : Option TimerTask :=
  (tasks.filter (fun tk => dueIds.contains tk.id)).foldl
    (fun acc tk =>
      match acc with
      | none => some tk
      | some m => if taskLt tk m then some tk else some m)
    none

/-- Fire one task: run its callback; afterwards, if the task is still
registered (its callback may have cancelled it), reschedule it to
`now + interval` when repeating, or remove it when one-shot. -/
def fireTask (inp : Input) (t : Nat) (task : TimerTask) (s : SysState) : SysState :=
  let s1 := runCallback inp task.callback task.arg s
  if s1.tasks.any (fun tk => tk.id == task.id) then
    if task.repeating then
      { s1 with
        tasks := s1.tasks.map (fun tk =>
          if tk.id == task.id then { tk with due := t + tk.interval } else tk) }
    else
      { s1 with tasks := s1.tasks.filter (fun tk => tk.id ≠ task.id) }
  else s1

/-- The tick's firing loop: repeatedly fire the least due task whose id
remains in the due set computed at tick start. Fuel starts at the due
set's size, which bounds the number of firings (tasks scheduled during the
tick get fresh ids outside the due set). -/
def tickLoop (inp : Input) (t : Nat) : Nat → List Nat → SysState → SysState
  | 0, _, s => s
  | fuel + 1, dueIds, s =>
    match pickMin dueIds s.tasks with
    | none => s
    | some task =>
      tickLoop inp t fuel (dueIds.erase task.id) (fireTask inp t task s)

/-- Scheduler `timer.tick()` at clock time `t`: fire every task that was due at tick
start, in (due, registration) order, under environment input `inp`. -/
def tick (t : Nat) (inp : Input) (s : SysState) : SysState :=
  let s0 := { s with now := t }
  let dueIds := (s0.tasks.filter (fun tk => tk.due ≤ t)).map (fun tk => tk.id)
  tickLoop inp t dueIds.length dueIds s0

/-- Run the host `loop()` over a sequence of (tick time, input) pairs. -/
def run (evs : List (Nat × Input)) (s : SysState) : SysState :=
  evs.foldl (fun s ti => tick ti.1 ti.2 s) s

/-- The state at program start, before `setup()` runs: `CurrentValue`
zero-initialized (mist cache off), no tasks, clock at 0. -/
def initState : SysState :=
  { mistState := false
    fanDuty := 0
    tasks := []
    mistForDurationRepeatingTask := none
    timeoutTimerTask := none
    now := 0
    nextId := 0
    trace := []
    timeoutFirings := 0 }

/-- Function `buttonSetup`: attaches the handlers (modelled in `dispatchGesture`)
and registers the zero-interval button-polling task. -/
def buttonSetup (s : SysState) : SysState :=
  (timerEvery 0 Callback.buttonTickFromTimer 0 s).2

/-- Function `setup()`: arm the timeout, configure pins and PWM (no model effect
beyond the writes below), set up buttons, then fan on. -/
def setup (s : SysState) : SysState :=
  fanOn (buttonSetup (createTimeoutTimer s))

/-- The device state right after `setup()` runs at time 0. -/
def setupState : SysState := setup initState

/-- Modelled from the spec: the duty value the spec's wording
`round(p/100 * (2^precisionBits - 1))` prescribes for `setFanSpeedPercent`
at 8-bit precision — nearest-integer rounding (half away from zero, the C
`round` convention), for comparison with the source's truncating
computation. -/
def specRoundedDutyFromPercent (percent : Nat) : Nat :=
  (percent * 255 + 50) / 100

/-- Apply a sequence of requested mist-relay booleans through
`writeMistState` (the single chokepoint used by `mistOn`, `mistOff` and
`toggleMistState`). -/
def applyMistRequests (reqs : List Bool) (s : SysState) : SysState :=
  reqs.foldl (fun s b => writeMistState b s) s

/-- The boolean most recently written to the mist pin according to the
trace (which stores the most recent event first), if any write happened. -/
def lastMistWrite : List Ev → Option Bool
  | [] => none
  | Ev.mistWrite b _ :: _ => some b
  | _ :: rest => lastMistWrite rest

/-- The cached `mistState` agrees with the last value written to the mist
pin (with the pin's initial low state standing in when nothing was ever
written, matching the zero-initialized `CurrentValue`). -/
def MistConsistent (s : SysState) : Prop :=
  s.mistState = (lastMistWrite s.trace).getD false

/-- The timeout task as `setup()` registers it (handle 0, due a full
window after time 0). -/
def timeoutTask0 : TimerTask :=
  ⟨0, timeoutWindow, 0, false, Callback.implementTimeoutFromTimer, 0⟩

/-- The zero-interval button-polling task registered by `buttonSetup`,
rescheduled to the current tick time each time it fires. -/
def buttonTask (u : Nat) : TimerTask :=
  ⟨1, u, 0, true, Callback.buttonTickFromTimer, 0⟩

/-- The quiescent state between `setup()` and the timeout deadline when no
gesture ever occurs: `u` is the time of the last no-gesture tick. -/
def preState (u : Nat) : SysState :=
  { mistState := false
    fanDuty := 255
    tasks := [timeoutTask0, buttonTask u]
    mistForDurationRepeatingTask := none
    timeoutTimerTask := some 0
    now := u
    nextId := 2
    trace := [Ev.pwmWrite fanChannel 255 0]
    timeoutFirings := 0 }

/-- The state right after the timeout fires at tick time `T`: every task
cancelled, mist off, fan duty 0, exactly one timeout firing recorded. -/
def postState (T : Nat) : SysState :=
  { mistState := false
    fanDuty := 0
    tasks := []
    mistForDurationRepeatingTask := none
    timeoutTimerTask := some 0
    now := T
    nextId := 2
    trace := [Ev.pwmWrite fanChannel 0 T, Ev.pwmWrite fanChannel 255 0]
    timeoutFirings := 1 }

/-- A pending one-shot mist-off task with the given handle and due time. -/
def offTask (idv due : Nat) : TimerTask :=
  ⟨idv, due, 0, false, Callback.mistOffFromTimer, 0⟩

/-- The repeating mist-cycle task created by `mistForDurationRepeating`
(handle 1 when started from a fresh state): period `offD + onD`, callback
`mistForDurationFromTimer` with the on-duration as argument. -/
def repTask (due onD offD : Nat) : TimerTask :=
  ⟨1, due, offD + onD, true, Callback.mistForDurationFromTimer, onD⟩

/-- The state produced by calling `startRepeating(onD, offD)` at time `t`
on an otherwise idle controller (claim C2's scenario: no other gestures or
pending tasks interfere). -/
def startRepState (t onD offD : Nat) : SysState :=
  mistForDurationRepeating onD offD { initState with now := t }

/-- The mist-pin write trace the repeating cycle produces through `k` full
periods of length `p = onD + offD` (most recent first): on at `t + i*p`,
off at `t + i*p + onD`. -/
def cycleTrace (t onD p : Nat) : Nat → List Ev
  | 0 => [Ev.mistWrite true t]
  | k + 1 =>
    Ev.mistWrite true (t + (k + 1) * p) ::
      Ev.mistWrite false (t + k * p + onD) :: cycleTrace t onD p k

/-- The host-loop tick times for `k` full periods of the repeating cycle:
each period's mist-off due time followed by the next period's firing time. -/
def cycleTicks (t onD offD : Nat) : Nat → List (Nat × Input)
  | 0 => []
  | k + 1 =>
    cycleTicks t onD offD k ++
      [(t + k * (onD + offD) + onD, noInput),
       (t + (k + 1) * (onD + offD), noInput)]

/-- The cycle state right after the repeating task's `k`-th re-firing
(valid for `k ≥ 1`): mist on, the off-timer for this period pending, the
repeating task re-armed for the next period. -/
def cycleState (t onD offD k : Nat) : SysState :=
  { mistState := true
    fanDuty := 0
    tasks := [repTask (t + (k + 1) * (onD + offD)) onD offD,
              offTask (k + 1) (t + k * (onD + offD) + onD)]
    mistForDurationRepeatingTask := some 1
    timeoutTimerTask := none
    now := t + k * (onD + offD)
    nextId := k + 2
    trace := cycleTrace t onD (onD + offD) k
    timeoutFirings := 0 }

/-- Scheduler-handle hygiene: task ids are pairwise distinct and below the
fresh-handle counter. Every state reachable from `setup()` satisfies this
because the spec's handles are opaque and never reused. -/
def IdsOK (s : SysState) : Prop :=
  s.tasks.Pairwise (fun a b => a.id ≠ b.id) ∧ ∀ tk ∈ s.tasks, tk.id < s.nextId

/-- The timeout guard owns its handle: every scheduled timeout callback is
the one whose handle is stored in `timeoutTimerTask`. -/
def TimeoutOK (s : SysState) : Prop :=
  ∀ tk ∈ s.tasks, tk.callback = Callback.implementTimeoutFromTimer →
    s.timeoutTimerTask = some tk.id

/-- Every scheduled timeout callback is due exactly at `w` (the full-reset
property of `resetTimeoutTimer`). -/
def TimeoutDuesAt (w : Nat) (s : SysState) : Prop :=
  ∀ tk ∈ s.tasks, tk.callback = Callback.implementTimeoutFromTimer →
    tk.due = w

/-- Every scheduled timeout callback is due no earlier than `d`. -/
def TimeoutsAfter (d : Nat) (s : SysState) : Prop :=
  ∀ tk ∈ s.tasks, tk.callback = Callback.implementTimeoutFromTimer →
    d ≤ tk.due

/-- Bundle used while chasing a gesture's effect: timeout tasks all due at
`w`, handle hygiene intact, and `c` timeout firings so far. -/
def GoodAt (w c : Nat) (s : SysState) : Prop :=
  TimeoutDuesAt w s ∧ IdsOK s ∧ s.timeoutFirings = c

/-- The cycle state right after period `k`'s off-timer fired: mist off,
only the re-armed repeating task pending. -/
def cycleStateOff (t onD offD k : Nat) : SysState :=
  { mistState := false
    fanDuty := 0
    tasks := [repTask (t + (k + 1) * (onD + offD)) onD offD]
    mistForDurationRepeatingTask := some 1
    timeoutTimerTask := none
    now := t + k * (onD + offD) + onD
    nextId := k + 2
    trace := Ev.mistWrite false (t + k * (onD + offD) + onD) ::
      cycleTrace t onD (onD + offD) k
    timeoutFirings := 0 }

end Controller

open Controller

/-! ## Helper lemmas about the mist relay write-on-change rule -/

/-- Requesting the cached value performs no action: `writeMistState` leaves
the state untouched. -/
lemma writeMistState_of_eq (b : Bool) (s : SysState) (h : b = s.mistState) :
    writeMistState b s = s := by
  subst h
  cases hm : s.mistState <;> simp [writeMistState, getMistState, hm]

/-- Requesting a value different from the cache performs the write: the
cache takes the requested value and the trace records the `digitalWrite`. -/
lemma writeMistState_of_ne (b : Bool) (s : SysState) (h : b ≠ s.mistState) :
    writeMistState b s =
      { s with mistState := b, trace := Ev.mistWrite b s.now :: s.trace } := by
  cases b <;> cases hm : s.mistState <;>
    simp_all [writeMistState, getMistState, setMistState]

/-- After any `writeMistState`, the cache holds the requested value. -/
lemma writeMistState_mistState (b : Bool) (s : SysState) :
    (writeMistState b s).mistState = b := by
  by_cases h : b = s.mistState
  · rw [writeMistState_of_eq b s h]; exact h.symm
  · rw [writeMistState_of_ne b s h]

/-- One `writeMistState` preserves agreement between the cache and the last
value written to the pin. -/
lemma mistConsistent_write (b : Bool) (s : SysState) (h : MistConsistent s) :
    MistConsistent (writeMistState b s) := by
  by_cases hb : b = s.mistState
  · rw [writeMistState_of_eq b s hb]; exact h
  · rw [writeMistState_of_ne b s hb]
    simp [MistConsistent, lastMistWrite]

/-- Any sequence of mist requests preserves cache/pin agreement. -/
lemma mistConsistent_apply (reqs : List Bool) (s : SysState)
    (h : MistConsistent s) : MistConsistent (applyMistRequests reqs s) := by
  induction reqs generalizing s with
  | nil => exact h
  | cons b rest ih => exact ih _ (mistConsistent_write b s h)

/-- A list never equals itself with one more element in front. -/
lemma trace_ne_cons (e : Ev) (l : List Ev) : ¬ l = e :: l := by
  intro h
  simpa using congrArg List.length h

/-! ## Claim theorems -/

/-- C8: with the default 8-bit precision the source's truncating duty
computation gives `calculateDutyFromPercent 100 = 255`,
`calculateDutyFromPercent 0 = 0` and `calculateDutyFromPercent 50 = 127`
(127.5 truncated toward zero, not rounded up). -/
theorem c8_duty_truncation :
    calculateMaxDutyFromPrecision 8 = 255 ∧
    calculateDutyFromPercent 100 = 255 ∧
    calculateDutyFromPercent 0 = 0 ∧
    calculateDutyFromPercent 50 = 127 := by
  decide

/-- C7 counterexample: the claim says `setFanSpeedPercent p` writes the
nearest-integer rounding of `p/100 * 255`; at `p = 50` the source writes
127 while nearest-integer rounding of 127.5 gives 128, so the claim as
stated is false. -/
theorem c7_counterexample :
    (setFanSpeedPercent 50 initState).fanDuty ≠ specRoundedDutyFromPercent 50 := by
  decide

/-- C7 (amended): for every percent `p` in 0..100, `setFanSpeedPercent p`
writes to the fan PWM channel the duty `p/100 * (2^8 - 1)` truncated toward
zero, that is `p * 255 / 100` in integer floor division. -/
theorem c7_duty_written (p : Nat) (s : SysState) (_hp : p ≤ 100) :
    (setFanSpeedPercent p s).fanDuty = p * 255 / 100 ∧
    (setFanSpeedPercent p s).trace =
      Ev.pwmWrite fanChannel (p * 255 / 100) s.now :: s.trace := by
  constructor <;>
    simp [setFanSpeedPercent, setPwmPercent, calculateDutyFromPercent,
      calculateMaxDutyFromPrecision]

/-- Witness for C7 (amended) at `p = 50`. -/
theorem c7_duty_written_witness :
    (setFanSpeedPercent 50 initState).fanDuty = 50 * 255 / 100 ∧
    (setFanSpeedPercent 50 initState).trace =
      Ev.pwmWrite fanChannel (50 * 255 / 100) initState.now :: initState.trace :=
  c7_duty_written 50 initState (by decide)

/-- C1 (code-bug evidence): `mistForDurationRepeating` never cancels the
stored repeating-cycle handle before overwriting it, so after two
successive `startRepeating` calls BOTH repeating tasks remain scheduled and
the mist-on firings superpose both cadences: after a triple-click cycle
(on 1000, off 15000) followed by a double-click cycle (on 1000, off 30000)
at time 0, mist-on writes occur at 16000 (the first, supposedly cancelled,
cycle's period) and at 31000 (the second cycle's period). -/
theorem c1_two_cycles_superpose :
    ((mistForDurationRepeating 1000 30000
        (mistForDurationRepeating 1000 15000 initState)).tasks.filter
          (fun tk => tk.repeating)).length = 2 ∧
    (run [(1000, noInput), (16000, noInput), (17000, noInput), (31000, noInput)]
        (mistForDurationRepeating 1000 30000
          (mistForDurationRepeating 1000 15000 initState))).trace.reverse =
      [Ev.mistWrite true 0, Ev.mistWrite false 1000,
       Ev.mistWrite true 16000, Ev.mistWrite false 17000,
       Ev.mistWrite true 31000] := by
  decide

/-- C10: right after `setup()` the fan is on at 100% duty (255 written,
unconditionally, before any gesture), the cached mist state is off, the
timeout timer is armed for the full window, and the button-polling task is
registered. -/
theorem c10_setup_state :
    setupState.fanDuty = calculateDutyFromPercent 100 ∧
    setupState.fanDuty = 255 ∧
    setupState.mistState = false ∧
    setupState.trace = [Ev.pwmWrite fanChannel 255 0] ∧
    setupState.tasks = [timeoutTask0, buttonTask 0] ∧
    setupState.timeoutTimerTask = some 0 := by
  decide

/-- C6: when the repeating mist-cycle task fires while button One is in a
long-press-held state, the firing performs no action at all (the state is
unchanged: no relay write, no off-timer scheduled); otherwise it performs a
pulse of the stored on-duration (mist on, with a `digitalWrite` only if the
relay was off, plus a one-shot off-timer due after the on-duration). -/
theorem c6_long_press_guard (inp : Input) (arg : Nat) (s : SysState) :
    (inp.longPressedOne = true →
      runCallback inp Callback.mistForDurationFromTimer arg s = s) ∧
    (inp.longPressedOne = false →
      (runCallback inp Callback.mistForDurationFromTimer arg s).mistState = true ∧
      (runCallback inp Callback.mistForDurationFromTimer arg s).tasks =
        s.tasks ++ [offTask s.nextId (s.now + arg)] ∧
      (runCallback inp Callback.mistForDurationFromTimer arg s).trace =
        (if s.mistState then s.trace else Ev.mistWrite true s.now :: s.trace)) := by
  constructor <;> intro h
  · simp [runCallback, h]
  · cases hm : s.mistState <;>
      simp [runCallback, h, mistForDuration, mistOn, writeMistState, getMistState,
        setMistState, timerIn, offTask, hm]

/-- Witness for C6: both branches at concrete inputs. -/
theorem c6_long_press_guard_witness :
    runCallback ⟨[], true⟩ Callback.mistForDurationFromTimer 500 initState =
      initState ∧
    (runCallback ⟨[], false⟩ Callback.mistForDurationFromTimer 500
        initState).mistState = true :=
  ⟨(c6_long_press_guard ⟨[], true⟩ 500 initState).1 rfl,
   ((c6_long_press_guard ⟨[], false⟩ 500 initState).2 rfl).1⟩

/-- C3: a `digitalWrite` to the mist pin occurs iff the requested boolean
differs from the cached `mistState` (otherwise the state is completely
unchanged), and over any sequence of requests the cache always equals the
last value written to the pin (with the zero-initialized cache standing in
before any write). -/
theorem c3_write_on_change (b : Bool) (s : SysState) (reqs : List Bool) :
    ((writeMistState b s).trace = Ev.mistWrite b s.now :: s.trace ↔
      b ≠ s.mistState) ∧
    (writeMistState b s = s ↔ b = s.mistState) ∧
    (MistConsistent s → MistConsistent (applyMistRequests reqs s)) ∧
    MistConsistent initState := by
  refine ⟨⟨?_, ?_⟩, ⟨?_, ?_⟩, mistConsistent_apply reqs s, rfl⟩
  · intro htr hb
    rw [writeMistState_of_eq b s hb] at htr
    exact trace_ne_cons _ _ htr
  · intro hb
    rw [writeMistState_of_ne b s hb]
  · intro heq
    have := congrArg SysState.mistState heq
    rw [writeMistState_mistState] at this
    exact this
  · exact writeMistState_of_eq b s

/-- Witness for C3: the consistency invariant propagated through a concrete
request sequence, discharging the `MistConsistent` hypothesis via the
theorem's own final conjunct. -/
theorem c3_write_on_change_witness :
    MistConsistent (applyMistRequests [true, true, false] initState) :=
  (c3_write_on_change true initState [true, true, false]).2.2.1
    (c3_write_on_change true initState []).2.2.2

/-! ## Timeout-path lemmas (claims C4 and C9) -/

/-- Tasks are untouched by a mist-relay request. -/
lemma writeMistState_tasks (b : Bool) (s : SysState) :
    (writeMistState b s).tasks = s.tasks := by
  by_cases h : b = s.mistState
  · rw [writeMistState_of_eq b s h]
  · rw [writeMistState_of_ne b s h]

/-- Setup produces exactly the quiescent pre-timeout state at time 0. -/
lemma setupState_eq_preState : setupState = preState 0 := by
  decide

/-- A no-gesture tick strictly before the deadline only re-arms the button
poll: the quiescent state is preserved with the clock advanced. -/
lemma preState_tick (u T : Nat) (hu : u ≤ T) (hT : T < timeoutWindow) :
    tick T noInput (preState u) = preState T := by
  have h1 : ¬ (timeoutWindow ≤ T) := by omega
  simp [tick, preState, timeoutTask0, buttonTask, tickLoop, pickMin, fireTask,
    runCallback, buttonTick, noInput, taskLt, h1, hu]

/-- Chained no-gesture ticks before the deadline keep the system in the
quiescent state. -/
lemma preState_run (ts : List Nat) (u : Nat)
    (hchain : List.Chain' (· ≤ ·) (u :: ts))
    (hlt : ∀ x ∈ ts, x < timeoutWindow) :
    run (ts.map (fun x => (x, noInput))) (preState u) =
      preState (ts.getLastD u) := by
  induction ts generalizing u with
  | nil => rfl
  | cons t rest ih =>
    have h1 : u ≤ t := (List.chain'_cons.mp hchain).1
    have h2 : t < timeoutWindow := hlt t (List.mem_cons_self t rest)
    have h3 : run ((t :: rest).map (fun x => (x, noInput))) (preState u) =
        run (rest.map (fun x => (x, noInput))) (tick t noInput (preState u)) := rfl
    rw [h3, preState_tick u t h1 h2, List.getLastD_cons]
    exact ih t (List.chain'_cons.mp hchain).2 (fun x hx => hlt x (List.mem_cons_of_mem t hx))

/-- The first tick at or past the deadline fires the timeout exactly once:
the button poll (due earlier) is a no-op, then `implementTimeout` cancels
every task, leaves the mist relay off and writes fan duty 0. -/
lemma preState_timeout_tick (u T : Nat) (hu : u ≤ T) (huW : u < timeoutWindow)
    (hT : timeoutWindow ≤ T) :
    tick T noInput (preState u) = postState T := by
  simp [tick, preState, postState, timeoutTask0, buttonTask, tickLoop, pickMin,
    fireTask, runCallback, buttonTick, noInput, taskLt, implementTimeout,
    cancelAllTimerTasksAndTurnOffMistAndFan, cancelAllTimerTasks, timerCancelAll,
    mistOff, writeMistState, getMistState, fanOff, setPwmPercent,
    calculateDutyFromPercent, calculateMaxDutyFromPrecision, hu, hT, huW]

/-- A tick on an empty task set only advances the clock. -/
lemma tick_tasks_nil (T : Nat) (inp : Input) (s : SysState) (h : s.tasks = []) :
    tick T inp s = { s with now := T } := by
  simp [tick, h, tickLoop]

/-- A whole run on an empty task set only advances the clock: no callback
of any kind ever fires again, whatever gestures the environment produces. -/
lemma run_tasks_nil (evs : List (Nat × Input)) (s : SysState) (h : s.tasks = []) :
    run evs s = { s with now := (evs.map Prod.fst).getLastD s.now } := by
  induction evs generalizing s with
  | nil => simp [run]
  | cons e rest ih =>
    have h3 : run (e :: rest) s = run rest (tick e.1 e.2 s) := rfl
    rw [h3, tick_tasks_nil e.1 e.2 s h, List.map_cons, List.getLastD_cons]
    exact ih { s with now := e.1 } h

/-- The last element of a list, defaulted, is the default or a member. -/
lemma getLastD_mem_or (l : List Nat) (d : Nat) :
    l.getLastD d = d ∨ l.getLastD d ∈ l := by
  induction l generalizing d with
  | nil => left; rfl
  | cons a l ih =>
    rw [List.getLastD_cons]
    rcases ih a with h | h
    · right; rw [h]; exact List.mem_cons_self a l
    · right; exact List.mem_cons_of_mem a h

/-- C4: starting from `setup()`, if no gesture handler runs through the
whole timeout window (arbitrary no-gesture host ticks `ts` before the
deadline), the first tick at or past the deadline produces exactly one
timeout firing, after which every scheduled task is cancelled, the mist
relay is off and the fan duty is 0 — and any further ticks (`more`, with
any inputs) change nothing but the clock, so no second firing ever occurs. -/
theorem c4_timeout_once (ts : List Nat) (T : Nat) (more : List (Nat × Input))
    (hchain : List.Chain' (· ≤ ·) (0 :: ts))
    (hlt : ∀ x ∈ ts, x < timeoutWindow)
    (hlast : ts.getLastD 0 ≤ T)
    (hT : timeoutWindow ≤ T) :
    tick T noInput (run (ts.map (fun x => (x, noInput))) setupState) =
      postState T ∧
    run more (tick T noInput (run (ts.map (fun x => (x, noInput))) setupState)) =
      { postState T with now := (more.map Prod.fst).getLastD T } := by
  have h2 : ts.getLastD 0 < timeoutWindow := by
    rcases getLastD_mem_or ts 0 with h | h
    · rw [h]; norm_num [timeoutWindow]
    · exact hlt _ h
  have h1 : tick T noInput (run (ts.map (fun x => (x, noInput))) setupState) =
      postState T := by
    rw [setupState_eq_preState, preState_run ts 0 hchain hlt]
    exact preState_timeout_tick _ T hlast h2 hT
  refine ⟨h1, ?_⟩
  rw [h1, run_tasks_nil more (postState T) rfl]
  rfl

/-- Witness for C4: one pre-deadline tick at 5 ms, the deadline tick at
7200000 ms, and one further tick afterwards. -/
theorem c4_timeout_once_witness :
    tick 7200000 noInput (run ([5].map (fun x => (x, noInput))) setupState) =
      postState 7200000 ∧
    run [(7200005, noInput)] (tick 7200000 noInput
        (run ([5].map (fun x => (x, noInput))) setupState)) =
      { postState 7200000 with
        now := ([(7200005, noInput)].map Prod.fst).getLastD 7200000 } :=
  c4_timeout_once [5] 7200000 [(7200005, noInput)]
    (List.chain'_cons.mpr ⟨by norm_num, List.chain'_singleton _⟩)
    (by decide) (by decide) (by decide)

/-- C9: `cancelAllTimerTasks` (reached from button Three's double-click or
from the timeout firing) empties the whole task set — the button-polling
task and the timeout task included — and from any state with no tasks,
every later tick is inert whatever gestures the environment produces: no
gesture handler ever runs again and no further timeout ever fires. -/
theorem c9_cancel_all_quiesces (s s' : SysState) (evs : List (Nat × Input))
    (h : s'.tasks = []) :
    (dispatchGesture ⟨Button.three, GKind.doubleClick⟩ s).tasks = [] ∧
    (implementTimeout s).tasks = [] ∧
    run evs s' = { s' with now := (evs.map Prod.fst).getLastD s'.now } := by
  refine ⟨?_, ?_, run_tasks_nil evs s' h⟩
  · simp [dispatchGesture, handleThree, cancelAllTimerTasksAndTurnOffMistAndFan,
      cancelAllTimerTasks, timerCancelAll, fanOff, setPwmPercent, mistOff,
      writeMistState_tasks]
  · simp [implementTimeout, cancelAllTimerTasksAndTurnOffMistAndFan,
      cancelAllTimerTasks, timerCancelAll, fanOff, setPwmPercent, mistOff,
      writeMistState_tasks]

/-- Witness for C9: button Three double-click right after setup, then a
tick carrying a button One click that can no longer be detected. -/
theorem c9_cancel_all_quiesces_witness :
    (dispatchGesture ⟨Button.three, GKind.doubleClick⟩ setupState).tasks = [] ∧
    run [(10, ⟨[⟨Button.one, GKind.click⟩], false⟩)] initState =
      { initState with
        now := ([(10, (⟨[⟨Button.one, GKind.click⟩], false⟩ : Input))].map
          Prod.fst).getLastD initState.now } :=
  ⟨(c9_cancel_all_quiesces setupState initState [] rfl).1,
   (c9_cancel_all_quiesces setupState initState
      [(10, ⟨[⟨Button.one, GKind.click⟩], false⟩)] rfl).2.2⟩

/-! ## Repeating-cycle lemmas (claim C2) -/

/-- Running no tick events is the identity. -/
lemma run_nil (s : SysState) : run [] s = s := rfl

/-- Running a tick sequence processes the head tick first. -/
lemma run_cons (e : Nat × Input) (l : List (Nat × Input)) (s : SysState) :
    run (e :: l) s = run l (tick e.1 e.2 s) := rfl

/-- Running a concatenation runs the prefix first. -/
lemma run_append (l1 l2 : List (Nat × Input)) (s : SysState) :
    run (l1 ++ l2) s = run l2 (run l1 s) := by
  simp [run, List.foldl_append]

/-- Unfolding of the state `startRepeating` produces: mist on (one write),
the one-shot off task (handle 0) and the repeating task (handle 1) stored
in the repeating-cycle slot. -/
lemma startRepState_eq (t onD offD : Nat) :
    startRepState t onD offD =
      { mistState := true
        fanDuty := 0
        tasks := [⟨0, t + onD, 0, false, Callback.mistOffFromTimer, 0⟩,
                  ⟨1, t + (offD + onD), offD + onD, true,
                    Callback.mistForDurationFromTimer, onD⟩]
        mistForDurationRepeatingTask := some 1
        timeoutTimerTask := none
        now := t
        nextId := 2
        trace := [Ev.mistWrite true t]
        timeoutFirings := 0 } := by
  simp [startRepState, mistForDurationRepeating, mistForDuration, mistOn,
    writeMistState, getMistState, setMistState, timerIn, timerEvery, initState]

/-- Generic off-tick for the first period: with the initial off task
(handle 0) due now and the repeating task due strictly later, the tick
writes mist off and removes the off task. -/
lemma tick_off0_generic (D T u n onD offD : Nat) (tr : List Ev) (hlt : T < D) :
    tick T noInput
      { mistState := true
        fanDuty := 0
        tasks := [⟨0, T, 0, false, Callback.mistOffFromTimer, 0⟩,
                  ⟨1, D, offD + onD, true, Callback.mistForDurationFromTimer, onD⟩]
        mistForDurationRepeatingTask := some 1
        timeoutTimerTask := none
        now := u
        nextId := n
        trace := tr
        timeoutFirings := 0 } =
      { mistState := false
        fanDuty := 0
        tasks := [⟨1, D, offD + onD, true, Callback.mistForDurationFromTimer, onD⟩]
        mistForDurationRepeatingTask := some 1
        timeoutTimerTask := none
        now := T
        nextId := n
        trace := Ev.mistWrite false T :: tr
        timeoutFirings := 0 } := by
  have h1 : ¬ (D ≤ T) := by omega
  simp [tick, tickLoop, pickMin, fireTask, runCallback, mistOff, writeMistState,
    getMistState, setMistState, noInput, taskLt, h1]

/-- Generic off-tick for later periods: with only the re-armed repeating
task (due strictly later) and the pending off task (handle `m ≠ 1`), the
tick at the off task's due time writes mist off and removes it. -/
lemma tick_off_generic (D T u m n onD offD : Nat) (tr : List Ev)
    (hlt : T < D) (hm : m ≠ 1) :
    tick T noInput
      { mistState := true
        fanDuty := 0
        tasks := [⟨1, D, offD + onD, true, Callback.mistForDurationFromTimer, onD⟩,
                  ⟨m, T, 0, false, Callback.mistOffFromTimer, 0⟩]
        mistForDurationRepeatingTask := some 1
        timeoutTimerTask := none
        now := u
        nextId := n
        trace := tr
        timeoutFirings := 0 } =
      { mistState := false
        fanDuty := 0
        tasks := [⟨1, D, offD + onD, true, Callback.mistForDurationFromTimer, onD⟩]
        mistForDurationRepeatingTask := some 1
        timeoutTimerTask := none
        now := T
        nextId := n
        trace := Ev.mistWrite false T :: tr
        timeoutFirings := 0 } := by
  have h1 : ¬ (D ≤ T) := by omega
  have hb1 : ((1 : Nat) == m) = false := by
    rw [beq_eq_false_iff_ne]
    exact fun h => hm h.symm
  have hb2 : ((m : Nat) == 1) = false := by
    rw [beq_eq_false_iff_ne]
    exact hm
  have hd : (1 : Nat) ≠ m := fun h => hm h.symm
  simp [tick, tickLoop, pickMin, fireTask, runCallback, mistOff, writeMistState,
    getMistState, setMistState, noInput, taskLt, h1, hb1, hb2, hd, hm]

/-- Generic on-tick: when only the repeating task is scheduled, due now,
and the relay is off, the firing performs the pulse — mist on, a fresh
off task due one on-duration later, the repeating task re-armed one period
later. -/
lemma tick_on_generic (D u n onD offD : Nat) (tr : List Ev) (hn : n ≠ 1) :
    tick D noInput
      { mistState := false
        fanDuty := 0
        tasks := [⟨1, D, offD + onD, true, Callback.mistForDurationFromTimer, onD⟩]
        mistForDurationRepeatingTask := some 1
        timeoutTimerTask := none
        now := u
        nextId := n
        trace := tr
        timeoutFirings := 0 } =
      { mistState := true
        fanDuty := 0
        tasks := [⟨1, D + (offD + onD), offD + onD, true,
                    Callback.mistForDurationFromTimer, onD⟩,
                  ⟨n, D + onD, 0, false, Callback.mistOffFromTimer, 0⟩]
        mistForDurationRepeatingTask := some 1
        timeoutTimerTask := none
        now := D
        nextId := n + 1
        trace := Ev.mistWrite true D :: tr
        timeoutFirings := 0 } := by
  have hb : ((n : Nat) == 1) = false := by
    rw [beq_eq_false_iff_ne]
    exact hn
  simp [tick, tickLoop, pickMin, fireTask, runCallback, mistForDuration, mistOn,
    writeMistState, getMistState, setMistState, timerIn, noInput, taskLt, hb, hn]

/-- Unfolding of `cycleState (k+1)` with the re-armed repeating task's due
time written in producer form (previous firing time plus one period). -/
lemma cycleState_succ (t onD offD k : Nat) :
    cycleState t onD offD (k + 1) =
      { mistState := true
        fanDuty := 0
        tasks := [⟨1, t + (k + 1) * (onD + offD) + (offD + onD), offD + onD,
                    true, Callback.mistForDurationFromTimer, onD⟩,
                  ⟨k + 2, t + (k + 1) * (onD + offD) + onD, 0, false,
                    Callback.mistOffFromTimer, 0⟩]
        mistForDurationRepeatingTask := some 1
        timeoutTimerTask := none
        now := t + (k + 1) * (onD + offD)
        nextId := k + 3
        trace := Ev.mistWrite true (t + (k + 1) * (onD + offD)) ::
          Ev.mistWrite false (t + k * (onD + offD) + onD) ::
            cycleTrace t onD (onD + offD) k
        timeoutFirings := 0 } := by
  have e1 : t + (k + 1 + 1) * (onD + offD) =
      t + (k + 1) * (onD + offD) + (offD + onD) := by ring
  simp [cycleState, repTask, offTask, cycleTrace, e1]

/-- The first full period: off at `t + onD`, on again at `t + 1*(period)`. -/
lemma cycle_run_one (t onD offD : Nat) (hoff : 0 < offD) :
    run (cycleTicks t onD offD 1) (startRepState t onD offD) =
      cycleState t onD offD 1 := by
  have hsplit : cycleTicks t onD offD 1 =
      [(t + 0 * (onD + offD) + onD, noInput),
       (t + (0 + 1) * (onD + offD), noInput)] := rfl
  have e0 : t + 0 * (onD + offD) + onD = t + onD := by ring
  have e1 : t + (0 + 1) * (onD + offD) = t + (offD + onD) := by ring
  rw [hsplit, run_cons, run_cons, run_nil]
  simp only []
  rw [startRepState_eq, e0, e1]
  rw [tick_off0_generic (t + (offD + onD)) (t + onD) t 2 onD offD
    [Ev.mistWrite true t] (by omega)]
  rw [tick_on_generic (t + (offD + onD)) (t + onD) 2 onD offD
    (Ev.mistWrite false (t + onD) :: [Ev.mistWrite true t]) (by omega)]
  simp only [cycleState, repTask, offTask, cycleTrace, SysState.mk.injEq,
    TimerTask.mk.injEq, List.cons.injEq, Ev.mistWrite.injEq]
  repeat' apply And.intro
  all_goals first | rfl | ring1 | ring_nf

/-- Each further full period advances the cycle state by one period. -/
lemma cycle_run (t onD offD : Nat) (hoff : 0 < offD) (k : Nat) :
    run (cycleTicks t onD offD (k + 1)) (startRepState t onD offD) =
      cycleState t onD offD (k + 1) := by
  induction k with
  | zero => exact cycle_run_one t onD offD hoff
  | succ k ih =>
    have hsplit : cycleTicks t onD offD (k + 1 + 1) =
        cycleTicks t onD offD (k + 1) ++
          [(t + (k + 1) * (onD + offD) + onD, noInput),
           (t + (k + 1 + 1) * (onD + offD), noInput)] := rfl
    have e1 : t + (k + 1 + 1) * (onD + offD) =
        t + (k + 1) * (onD + offD) + (offD + onD) := by ring
    have hlt : t + (k + 1) * (onD + offD) + onD <
        t + (k + 1) * (onD + offD) + (offD + onD) :=
      Nat.add_lt_add_left (by omega) _
    rw [hsplit, run_append, ih, run_cons, run_cons, run_nil]
    simp only []
    rw [cycleState_succ, e1]
    rw [tick_off_generic (t + (k + 1) * (onD + offD) + (offD + onD))
      (t + (k + 1) * (onD + offD) + onD) (t + (k + 1) * (onD + offD))
      (k + 2) (k + 3) onD offD
      (Ev.mistWrite true (t + (k + 1) * (onD + offD)) ::
        Ev.mistWrite false (t + k * (onD + offD) + onD) ::
          cycleTrace t onD (onD + offD) k)
      hlt (by omega)]
    rw [tick_on_generic (t + (k + 1) * (onD + offD) + (offD + onD))
      (t + (k + 1) * (onD + offD) + onD) (k + 3) onD offD
      (Ev.mistWrite false (t + (k + 1) * (onD + offD) + onD) ::
        Ev.mistWrite true (t + (k + 1) * (onD + offD)) ::
          Ev.mistWrite false (t + k * (onD + offD) + onD) ::
            cycleTrace t onD (onD + offD) k)
      (by omega)]
    simp only [cycleState, repTask, offTask, cycleTrace, SysState.mk.injEq,
      TimerTask.mk.injEq, List.cons.injEq, Ev.mistWrite.injEq]
    repeat' apply And.intro
    all_goals first | rfl | ring1 | ring_nf

/-- C2 counterexample: the claim as stated allows `off = 0`, but with
`on = 1, off = 0` started at `t = 0` the relay does NOT follow the claimed
pattern through the second period: at `t = 2` the repeating firing (fired
first, by registration order, at the shared due time) finds the relay
still on and writes nothing, then the pending off-timer turns it off — so
the period ends with the relay off instead of on and the claimed trace
(which ends with an on-write at `t = 2`) never happens. -/
theorem c2_counterexample :
    ¬ ((run (cycleTicks 0 1 0 2) (startRepState 0 1 0)).trace =
          cycleTrace 0 1 (1 + 0) 2 ∧
        (run (cycleTicks 0 1 0 2) (startRepState 0 1 0)).mistState = true) := by
  decide

/-- C2 (amended to strictly positive off-duration): for every `on > 0` and
`off > 0`, `startRepeating(on, off)` at time `t` with no intervening
gesture or cancellation turns the mist relay on at `t`, off at `t + on`,
on again at `t + (on+off)`, off again at `t + (on+off) + on`, and so on
for every period `k` until cancelled: the write trace through `k` periods
is exactly `cycleTrace` and the relay is on right after each period's
firing. -/
theorem c2_repeating_cadence (t onD offD k : Nat) (_hon : 0 < onD)
    (hoff : 0 < offD) :
    (run (cycleTicks t onD offD k) (startRepState t onD offD)).trace =
      cycleTrace t onD (onD + offD) k ∧
    (run (cycleTicks t onD offD k) (startRepState t onD offD)).mistState =
      true := by
  cases k with
  | zero =>
    rw [show run (cycleTicks t onD offD 0) (startRepState t onD offD) =
      startRepState t onD offD from rfl, startRepState_eq]
    exact ⟨rfl, rfl⟩
  | succ k =>
    rw [cycle_run t onD offD hoff k]
    exact ⟨rfl, rfl⟩

/-- Witness for C2 at `t = 0, on = 1000, off = 30000` (button One's
double-click cycle) through two full periods. -/
theorem c2_repeating_cadence_witness :
    (run (cycleTicks 0 1000 30000 2) (startRepState 0 1000 30000)).trace =
      cycleTrace 0 1000 (1000 + 30000) 2 ∧
    (run (cycleTicks 0 1000 30000 2) (startRepState 0 1000 30000)).mistState =
      true :=
  c2_repeating_cadence 0 1000 30000 2 (by decide) (by decide)

/-! ## Timeout-guard reset lemmas (claim C5) -/

/-- Mist-relay requests do not touch the fresh-handle counter. -/
lemma writeMistState_nextId (b : Bool) (s : SysState) :
    (writeMistState b s).nextId = s.nextId := by
  by_cases h : b = s.mistState
  · rw [writeMistState_of_eq b s h]
  · rw [writeMistState_of_ne b s h]

/-- Mist-relay requests do not touch the clock. -/
lemma writeMistState_now (b : Bool) (s : SysState) :
    (writeMistState b s).now = s.now := by
  by_cases h : b = s.mistState
  · rw [writeMistState_of_eq b s h]
  · rw [writeMistState_of_ne b s h]

/-- Mist-relay requests do not touch the timeout-firing count. -/
lemma writeMistState_timeoutFirings (b : Bool) (s : SysState) :
    (writeMistState b s).timeoutFirings = s.timeoutFirings := by
  by_cases h : b = s.mistState
  · rw [writeMistState_of_eq b s h]
  · rw [writeMistState_of_ne b s h]

/-- Two scheduled tasks with the same handle are the same task. -/
lemma ids_unique (l : List TimerTask)
    (hp : l.Pairwise (fun a b => a.id ≠ b.id)) (a b : TimerTask)
    (ha : a ∈ l) (hb : b ∈ l) (hid : a.id = b.id) : a = b := by
  by_contra hne
  have hsym : Symmetric (fun (a b : TimerTask) => a.id ≠ b.id) :=
    fun x y hxy he => hxy he.symm
  exact hp.forall hsym ha hb hne hid

/-- Registering a fresh task preserves handle hygiene. -/
lemma idsOK_of_append (s s' : SysState) (ntk : TimerTask)
    (hid : ntk.id = s.nextId) (hts : s'.tasks = s.tasks ++ [ntk])
    (hni : s'.nextId = s.nextId + 1) (h : IdsOK s) : IdsOK s' := by
  obtain ⟨hp, hb⟩ := h
  constructor
  · rw [hts]
    refine List.pairwise_append.mpr ⟨hp, List.pairwise_singleton _ _, ?_⟩
    intro a ha b hb'
    rw [List.mem_singleton] at hb'
    subst hb'
    rw [hid]
    exact (hb a ha).ne
  · intro tk htk
    rw [hts] at htk
    rw [hni]
    rcases List.mem_append.mp htk with h' | h'
    · exact Nat.lt_succ_of_lt (hb tk h')
    · rw [List.mem_singleton] at h'
      subst h'
      rw [hid]
      exact Nat.lt_succ_self _

/-- Cancelling a handle preserves handle hygiene. -/
lemma idsOK_timerCancel (h : Option Nat) (s : SysState) (hg : IdsOK s) :
    IdsOK (timerCancel h s) := by
  obtain ⟨hp, hb⟩ := hg
  cases h with
  | none => exact ⟨hp, hb⟩
  | some i =>
    exact ⟨hp.filter _, fun tk htk => hb tk (List.mem_of_mem_filter htk)⟩

/-- Cancelled-task sets are subsets of the original. -/
lemma timerCancel_mem (h : Option Nat) (s : SysState) (tk : TimerTask)
    (htk : tk ∈ (timerCancel h s).tasks) : tk ∈ s.tasks := by
  cases h with
  | none => exact htk
  | some i => exact List.mem_of_mem_filter htk

/-- A mist-relay request preserves the timeout bundle. -/
lemma good_write (w c : Nat) (b : Bool) (s : SysState) (h : GoodAt w c s) :
    GoodAt w c (writeMistState b s) := by
  by_cases hb : b = s.mistState
  · rwa [writeMistState_of_eq b s hb]
  · rw [writeMistState_of_ne b s hb]
    exact h

/-- A PWM write preserves the timeout bundle. -/
lemma good_pwm (w c ch p : Nat) (s : SysState) (h : GoodAt w c s) :
    GoodAt w c (setPwmPercent ch p s) := h

/-- Cancelling any handle preserves the timeout bundle. -/
lemma good_timerCancel (w c : Nat) (h : Option Nat) (s : SysState)
    (hg : GoodAt w c s) : GoodAt w c (timerCancel h s) := by
  obtain ⟨hd, hi, hf⟩ := hg
  refine ⟨fun tk htk hc => hd tk (timerCancel_mem h s tk htk) hc,
    idsOK_timerCancel h s hi, ?_⟩
  cases h with
  | none => exact hf
  | some i => exact hf

/-- Scheduling a non-timeout one-shot preserves the timeout bundle. -/
lemma good_timerIn (w c delay arg : Nat) (cb : Callback)
    (hcb : cb ≠ Callback.implementTimeoutFromTimer) (s : SysState)
    (hg : GoodAt w c s) : GoodAt w c (timerIn delay cb arg s).2 := by
  obtain ⟨hd, hi, hf⟩ := hg
  refine ⟨?_, idsOK_of_append s _ _ rfl rfl rfl hi, hf⟩
  intro tk htk hc
  rcases List.mem_append.mp htk with h' | h'
  · exact hd tk h' hc
  · rw [List.mem_singleton] at h'
    subst h'
    exact absurd hc hcb

/-- Scheduling a non-timeout repeating task preserves the timeout bundle. -/
lemma good_timerEvery (w c interval arg : Nat) (cb : Callback)
    (hcb : cb ≠ Callback.implementTimeoutFromTimer) (s : SysState)
    (hg : GoodAt w c s) : GoodAt w c (timerEvery interval cb arg s).2 := by
  obtain ⟨hd, hi, hf⟩ := hg
  refine ⟨?_, idsOK_of_append s _ _ rfl rfl rfl hi, hf⟩
  intro tk htk hc
  rcases List.mem_append.mp htk with h' | h'
  · exact hd tk h' hc
  · rw [List.mem_singleton] at h'
    subst h'
    exact absurd hc hcb

/-- A mist pulse preserves the timeout bundle. -/
lemma good_mistForDuration (w c d : Nat) (s : SysState) (hg : GoodAt w c s) :
    GoodAt w c (mistForDuration d s) :=
  good_timerIn w c d 0 Callback.mistOffFromTimer (by decide) (mistOn s)
    (good_write w c true s hg)

/-- Starting a repeating mist cycle preserves the timeout bundle. -/
lemma good_mistForDurationRepeating (w c a b : Nat) (s : SysState)
    (hg : GoodAt w c s) : GoodAt w c (mistForDurationRepeating a b s) :=
  good_timerEvery w c (b + a) a Callback.mistForDurationFromTimer (by decide)
    (mistForDuration a s) (good_mistForDuration w c a s hg)

/-- The panic action (cancel all, mist off, fan off) trivially satisfies
the timeout bundle: no tasks remain at all. -/
lemma good_cancelAllCombo (w c : Nat) (s : SysState)
    (hf : s.timeoutFirings = c) :
    GoodAt w c (cancelAllTimerTasksAndTurnOffMistAndFan s) := by
  have ht : (cancelAllTimerTasksAndTurnOffMistAndFan s).tasks = [] := by
    simp [cancelAllTimerTasksAndTurnOffMistAndFan, cancelAllTimerTasks,
      timerCancelAll, fanOff, setPwmPercent, mistOff, writeMistState_tasks]
  have hfr : (cancelAllTimerTasksAndTurnOffMistAndFan s).timeoutFirings =
      s.timeoutFirings := by
    simp [cancelAllTimerTasksAndTurnOffMistAndFan, cancelAllTimerTasks,
      timerCancelAll, fanOff, setPwmPercent, mistOff,
      writeMistState_timeoutFirings]
  refine ⟨?_, ⟨?_, ?_⟩, hfr.trans hf⟩
  · intro tk htk
    rw [ht] at htk
    cases htk
  · rw [ht]
    exact List.Pairwise.nil
  · intro tk htk
    rw [ht] at htk
    cases htk

/-- Re-arming the timeout guard: after `resetTimeoutTimer`, every
scheduled timeout task is due exactly one full window from now — the old
one is cancelled (it was the stored handle, by `TimeoutOK`) and the fresh
one is due at `now + timeoutWindow`. -/
lemma good_reset (s : SysState) (hids : IdsOK s) (hok : TimeoutOK s) :
    GoodAt (s.now + timeoutWindow) s.timeoutFirings (resetTimeoutTimer s) := by
  have h1 : ∀ tk ∈ (timerCancel s.timeoutTimerTask s).tasks,
      tk.callback ≠ Callback.implementTimeoutFromTimer := by
    intro tk htk hc
    cases hh : s.timeoutTimerTask with
    | none =>
      rw [hh] at htk
      have h2 := hok tk htk hc
      rw [hh] at h2
      cases h2
    | some i =>
      rw [hh] at htk
      simp only [timerCancel, List.mem_filter, decide_eq_true_eq] at htk
      have h2 := hok tk htk.1 hc
      rw [hh] at h2
      exact htk.2 (Option.some.inj h2).symm
  have hnow : (timerCancel s.timeoutTimerTask s).now = s.now := by
    cases s.timeoutTimerTask <;> rfl
  have hfir : (timerCancel s.timeoutTimerTask s).timeoutFirings =
      s.timeoutFirings := by
    cases s.timeoutTimerTask <;> rfl
  refine ⟨?_, ?_, ?_⟩
  · intro tk htk hc
    rcases List.mem_append.mp htk with h' | h'
    · exact absurd hc (h1 tk h')
    · rw [List.mem_singleton] at h'
      subst h'
      rw [hnow]
  · exact idsOK_of_append (timerCancel s.timeoutTimerTask s) _ _ rfl rfl rfl
      (idsOK_timerCancel _ s hids)
  · exact hfir

/-- Every gesture handler, whatever button and kind, first performs the
full timeout reset and then only non-timeout actions: afterwards every
scheduled timeout task is due exactly `now + timeoutWindow`, the handle
hygiene is intact, and the firing count is untouched. -/
lemma dispatch_good (g : Gesture) (s : SysState) (hids : IdsOK s)
    (hok : TimeoutOK s) :
    GoodAt (s.now + timeoutWindow) s.timeoutFirings (dispatchGesture g s) := by
  have hr := good_reset s hids hok
  obtain ⟨b, k⟩ := g
  cases b with
  | one =>
    cases k with
    | click => exact good_mistForDuration _ _ 1000 _ hr
    | doubleClick => exact good_mistForDurationRepeating _ _ 1000 30000 _ hr
    | longPressStart => exact hr
    | longPressHeld => exact good_write _ _ true _ hr
    | longPressStop => exact good_write _ _ false _ hr
    | multiClick n =>
      show GoodAt _ _ (handleOne (GKind.multiClick n) s)
      rw [handleOne]
      split
      · exact good_mistForDurationRepeating _ _ 1000 15000 _ hr
      · split
        · exact good_mistForDurationRepeating _ _ 3000 30000 _ hr
        · split
          · exact good_mistForDurationRepeating _ _ 3000 15000 _ hr
          · exact hr
  | two =>
    cases k with
    | click => exact good_pwm _ _ fanChannel 100 _ hr
    | doubleClick => exact good_pwm _ _ fanChannel 0 _ hr
    | longPressStart => exact hr
    | longPressHeld => exact hr
    | longPressStop => exact hr
    | multiClick n => exact hr
  | three =>
    cases k with
    | click => exact good_timerCancel _ _ _ _ hr
    | doubleClick => exact good_cancelAllCombo _ _ _ hr.2.2
    | longPressStart => exact hr
    | longPressHeld => exact hr
    | longPressStop => exact hr
    | multiClick n => exact hr

/-- The fold inside `pickMin` only ever returns its accumulator or a list
element. -/
lemma pickMin_aux (l : List TimerTask) (acc : Option TimerTask) (tk : TimerTask)
    (h : l.foldl (fun acc tk => match acc with
        | none => some tk
        | some m => if taskLt tk m then some tk else some m) acc = some tk) :
    acc = some tk ∨ tk ∈ l := by
  induction l generalizing acc with
  | nil => exact Or.inl h
  | cons x xs ih =>
    rcases ih _ h with h' | h'
    · cases acc with
      | none =>
        right
        simp only [] at h'
        exact (Option.some.inj h') ▸ List.mem_cons_self x xs
      | some m =>
        cases hb : taskLt x m with
        | true =>
          right
          simp only [hb, if_true] at h'
          exact (Option.some.inj h') ▸ List.mem_cons_self x xs
        | false =>
          left
          simp only [hb, if_false] at h'
          exact h'
    · exact Or.inr (List.mem_cons_of_mem x h')

/-- A task selected by `pickMin` is scheduled and its handle is in the due
set. -/
lemma pickMin_mem (dueIds : List Nat) (tasks : List TimerTask)
    (tk : TimerTask) (h : pickMin dueIds tasks = some tk) :
    tk ∈ tasks ∧ tk.id ∈ dueIds := by
  rw [pickMin] at h
  rcases pickMin_aux _ none tk h with h' | h'
  · cases h'
  · have h2 := List.mem_filter.mp h'
    refine ⟨h2.1, ?_⟩
    have h3 := h2.2
    simpa using h3

/-- Shape of a non-timeout callback fired with no recognized gestures: the
firing count is untouched and the task set either stays put or gains one
fresh mist-off one-shot. -/
lemma runCallback_noInput_shape (cb : Callback) (arg : Nat) (s : SysState)
    (hcb : cb ≠ Callback.implementTimeoutFromTimer) :
    (runCallback noInput cb arg s).timeoutFirings = s.timeoutFirings ∧
    (((runCallback noInput cb arg s).tasks = s.tasks ∧
      (runCallback noInput cb arg s).nextId = s.nextId) ∨
     ((runCallback noInput cb arg s).tasks =
        s.tasks ++ [⟨s.nextId, s.now + arg, 0, false,
          Callback.mistOffFromTimer, 0⟩] ∧
      (runCallback noInput cb arg s).nextId = s.nextId + 1)) := by
  cases cb with
  | mistOnFromTimer =>
    exact ⟨writeMistState_timeoutFirings true s,
      Or.inl ⟨writeMistState_tasks true s, writeMistState_nextId true s⟩⟩
  | mistOffFromTimer =>
    exact ⟨writeMistState_timeoutFirings false s,
      Or.inl ⟨writeMistState_tasks false s, writeMistState_nextId false s⟩⟩
  | mistForDurationFromTimer =>
    refine ⟨?_, Or.inr ⟨?_, ?_⟩⟩ <;>
      simp [runCallback, noInput, mistForDuration, mistOn, timerIn,
        writeMistState_tasks, writeMistState_nextId, writeMistState_now,
        writeMistState_timeoutFirings]
  | implementTimeoutFromTimer => exact absurd rfl hcb
  | buttonTickFromTimer => exact ⟨rfl, Or.inl ⟨rfl, rfl⟩⟩

/-- Firing one non-timeout task preserves the timeout invariants: no
firing-count change, handle hygiene intact, timeout dues untouched, the
fresh-handle counter only grows, and no new timeout task appears. -/
lemma fireTask_inv (d T : Nat) (tk : TimerTask) (s : SysState)
    (h1 : IdsOK s) (h2 : TimeoutsAfter d s) (htk : tk ∈ s.tasks)
    (hcb : tk.callback ≠ Callback.implementTimeoutFromTimer) :
    (fireTask noInput T tk s).timeoutFirings = s.timeoutFirings ∧
    IdsOK (fireTask noInput T tk s) ∧
    TimeoutsAfter d (fireTask noInput T tk s) ∧
    s.nextId ≤ (fireTask noInput T tk s).nextId ∧
    (∀ tk2 ∈ (fireTask noInput T tk s).tasks,
      tk2.callback = Callback.implementTimeoutFromTimer → tk2 ∈ s.tasks) := by
  obtain ⟨hf, hsh⟩ := runCallback_noInput_shape tk.callback tk.arg s hcb
  set s1 := runCallback noInput tk.callback tk.arg s with hs1
  have hs1_props : IdsOK s1 ∧ TimeoutsAfter d s1 ∧ s.nextId ≤ s1.nextId ∧
      tk ∈ s1.tasks ∧
      (∀ tk2 ∈ s1.tasks, tk2.callback = Callback.implementTimeoutFromTimer →
        tk2 ∈ s.tasks) := by
    rcases hsh with ⟨hts, hni⟩ | ⟨hts, hni⟩
    · refine ⟨⟨?_, ?_⟩, ?_, ?_, ?_, ?_⟩
      · rw [hts]; exact h1.1
      · rw [hts, hni]; exact h1.2
      · intro tk2 htk2 hc
        rw [hts] at htk2
        exact h2 tk2 htk2 hc
      · rw [hni]
      · rw [hts]; exact htk
      · intro tk2 htk2 _
        rw [hts] at htk2
        exact htk2
    · refine ⟨idsOK_of_append s s1 _ rfl hts hni h1, ?_, ?_, ?_, ?_⟩
      · intro tk2 htk2 hc
        rw [hts] at htk2
        rcases List.mem_append.mp htk2 with h' | h'
        · exact h2 tk2 h' hc
        · rw [List.mem_singleton] at h'
          subst h'
          cases hc
      · rw [hni]; exact Nat.le_succ _
      · rw [hts]; exact List.mem_append_left _ htk
      · intro tk2 htk2 hc
        rw [hts] at htk2
        rcases List.mem_append.mp htk2 with h' | h'
        · exact h'
        · rw [List.mem_singleton] at h'
          subst h'
          cases hc
  obtain ⟨hi1, ht1, hn1, hmem1, hnew1⟩ := hs1_props
  rw [fireTask]
  rw [← hs1]
  by_cases hany : (s1.tasks.any (fun tk2 => tk2.id == tk.id)) = true
  · rw [if_pos hany]
    by_cases hrep : tk.repeating
    · rw [if_pos hrep]
      have hmapid : ∀ tk2 : TimerTask,
          (if tk2.id == tk.id then { tk2 with due := T + tk2.interval }
            else tk2).id = tk2.id := by
        intro tk2
        by_cases hb : (tk2.id == tk.id) = true
        · rw [if_pos hb]
        · rw [if_neg hb]
      refine ⟨hf, ⟨?_, ?_⟩, ?_, ?_, ?_⟩
      · rw [List.pairwise_map]
        refine hi1.1.imp_of_mem ?_
        intro a b _ _ hab
        rw [hmapid a, hmapid b]
        exact hab
      · intro tk2 htk2
        rcases List.mem_map.mp htk2 with ⟨tk3, htk3, heq⟩
        rw [← heq, hmapid tk3]
        exact hi1.2 tk3 htk3
      · intro tk2 htk2 hc
        rcases List.mem_map.mp htk2 with ⟨tk3, htk3, heq⟩
        by_cases hb : (tk3.id == tk.id) = true
        · have htk3id : tk3.id = tk.id := by simpa using hb
          have : tk3 = tk := ids_unique s1.tasks hi1.1 tk3 tk htk3 hmem1 htk3id
          subst this
          rw [← heq] at hc
          rw [if_pos hb] at hc
          exact absurd hc hcb
        · rw [if_neg hb] at heq
          rw [← heq] at hc ⊢
          exact ht1 tk3 htk3 hc
      · exact hn1
      · intro tk2 htk2 hc
        rcases List.mem_map.mp htk2 with ⟨tk3, htk3, heq⟩
        by_cases hb : (tk3.id == tk.id) = true
        · have htk3id : tk3.id = tk.id := by simpa using hb
          have : tk3 = tk := ids_unique s1.tasks hi1.1 tk3 tk htk3 hmem1 htk3id
          subst this
          rw [← heq] at hc
          rw [if_pos hb] at hc
          exact absurd hc hcb
        · rw [if_neg hb] at heq
          rw [← heq] at hc ⊢
          exact hnew1 tk3 htk3 hc
    · rw [if_neg hrep]
      refine ⟨hf, ⟨hi1.1.filter _, ?_⟩, ?_, ?_, ?_⟩
      · intro tk2 htk2
        exact hi1.2 tk2 (List.mem_of_mem_filter htk2)
      · intro tk2 htk2 hc
        exact ht1 tk2 (List.mem_of_mem_filter htk2) hc
      · exact hn1
      · intro tk2 htk2 hc
        exact hnew1 tk2 (List.mem_of_mem_filter htk2) hc
  · rw [if_neg hany]
    exact ⟨hf, hi1, ht1, hn1, hnew1⟩

/-- The tick firing loop never fires a timeout callback when no timeout
task's handle is in the due set: firings, handle hygiene and timeout dues
are preserved. -/
lemma tickLoop_no_timeout (d T : Nat) (_hT : T < d) :
    ∀ (fuel : Nat) (dueIds : List Nat) (s : SysState),
      IdsOK s → TimeoutsAfter d s →
      (∀ i ∈ dueIds, i < s.nextId) →
      (∀ tk ∈ s.tasks, tk.id ∈ dueIds →
        tk.callback ≠ Callback.implementTimeoutFromTimer) →
      (tickLoop noInput T fuel dueIds s).timeoutFirings = s.timeoutFirings ∧
      IdsOK (tickLoop noInput T fuel dueIds s) ∧
      TimeoutsAfter d (tickLoop noInput T fuel dueIds s) := by
  intro fuel
  induction fuel with
  | zero => intro dueIds s h1 h2 _ _; exact ⟨rfl, h1, h2⟩
  | succ fuel ih =>
    intro dueIds s h1 h2 h3 h4
    rw [tickLoop]
    cases hpick : pickMin dueIds s.tasks with
    | none => exact ⟨rfl, h1, h2⟩
    | some tk =>
      obtain ⟨htk_mem, htk_due⟩ := pickMin_mem dueIds s.tasks tk hpick
      have hcb : tk.callback ≠ Callback.implementTimeoutFromTimer :=
        h4 tk htk_mem htk_due
      obtain ⟨hf, hi, ht, hn, hnew⟩ :=
        fireTask_inv d T tk s h1 h2 htk_mem hcb
      have h3' : ∀ i ∈ dueIds.erase tk.id,
          i < (fireTask noInput T tk s).nextId := by
        intro i hi'
        exact lt_of_lt_of_le (h3 i (List.mem_of_mem_erase hi')) hn
      have h4' : ∀ tk2 ∈ (fireTask noInput T tk s).tasks,
          tk2.id ∈ dueIds.erase tk.id →
          tk2.callback ≠ Callback.implementTimeoutFromTimer := by
        intro tk2 htk2 hid2 hc
        exact h4 tk2 (hnew tk2 htk2 hc) (List.mem_of_mem_erase hid2) hc
      obtain ⟨hf2, hi2, ht2⟩ := ih (dueIds.erase tk.id)
        (fireTask noInput T tk s) hi ht h3' h4'
      exact ⟨hf2.trans hf, hi2, ht2⟩

/-- A single no-gesture tick strictly before every scheduled timeout's due
time fires no timeout: the firing count, handle hygiene and timeout dues
are preserved. -/
lemma tick_no_timeout (d T : Nat) (s : SysState) (hT : T < d)
    (h1 : IdsOK s) (h2 : TimeoutsAfter d s) :
    (tick T noInput s).timeoutFirings = s.timeoutFirings ∧
    IdsOK (tick T noInput s) ∧ TimeoutsAfter d (tick T noInput s) := by
  have h1' : IdsOK { s with now := T } := h1
  have h2' : TimeoutsAfter d { s with now := T } := h2
  have h3 : ∀ i ∈ (({ s with now := T } : SysState).tasks.filter
      (fun tk => tk.due ≤ T)).map (fun tk => tk.id),
      i < ({ s with now := T } : SysState).nextId := by
    intro i hi
    rcases List.mem_map.mp hi with ⟨tk, htk, hid⟩
    rw [← hid]
    exact h1'.2 tk (List.mem_of_mem_filter htk)
  have h4 : ∀ tk ∈ ({ s with now := T } : SysState).tasks,
      tk.id ∈ (({ s with now := T } : SysState).tasks.filter
        (fun tk => tk.due ≤ T)).map (fun tk => tk.id) →
      tk.callback ≠ Callback.implementTimeoutFromTimer := by
    intro tk htk hid hc
    rcases List.mem_map.mp hid with ⟨tk', htk', hid'⟩
    have hdue' : tk'.due ≤ T := by
      have hx := (List.mem_filter.mp htk').2
      simpa using hx
    have htkeq : tk' = tk :=
      ids_unique _ h1'.1 tk' tk (List.mem_of_mem_filter htk') htk hid'
    rw [htkeq] at hdue'
    have hd2 := h2' tk htk hc
    omega
  exact tickLoop_no_timeout d T hT _ _ { s with now := T } h1' h2' h3 h4

/-- A whole no-gesture run strictly before every scheduled timeout's due
time never fires a timeout. -/
lemma run_no_timeout (d : Nat) (ts : List Nat) :
    ∀ (s : SysState), IdsOK s → TimeoutsAfter d s → (∀ T ∈ ts, T < d) →
    (run (ts.map (fun T => (T, noInput))) s).timeoutFirings =
      s.timeoutFirings := by
  induction ts with
  | nil => intro s _ _ _; rfl
  | cons T rest ih =>
    intro s h1 h2 h3
    rw [List.map_cons, run_cons]
    obtain ⟨hf, hi, ht⟩ :=
      tick_no_timeout d T s (h3 T (List.mem_cons_self T rest)) h1 h2
    rw [ih _ hi ht (fun x hx => h3 x (List.mem_cons_of_mem T hx)), hf]

/-- C5: every gesture handler on every button cancels the stored timeout
task and schedules a fresh one due a FULL window from the gesture's time
(`TimeoutDuesAt (now + window)` — a full reset, not an extension);
consequently, over any no-gesture host ticks that all happen strictly
within one window of the gesture (in particular up to a second gesture
less than a window later), no timeout firing occurs. -/
theorem c5_gesture_full_reset (g : Gesture) (s : SysState) (ts : List Nat)
    (hids : IdsOK s) (hok : TimeoutOK s)
    (hts : ∀ T ∈ ts, T < s.now + timeoutWindow) :
    TimeoutDuesAt (s.now + timeoutWindow) (dispatchGesture g s) ∧
    (run (ts.map (fun T => (T, noInput)))
        (dispatchGesture g s)).timeoutFirings = s.timeoutFirings := by
  obtain ⟨hd, hi, hf⟩ := dispatch_good g s hids hok
  refine ⟨hd, ?_⟩
  have hta : TimeoutsAfter (s.now + timeoutWindow) (dispatchGesture g s) :=
    fun tk htk hc => le_of_eq (hd tk htk hc).symm
  rw [run_no_timeout (s.now + timeoutWindow) ts _ hi hta hts, hf]

/-- Witness for C5: button One double-click right after setup, followed by
a no-gesture tick at 100 ms (well within the window): the fresh timeout is
due at the full window and no timeout fires. -/
theorem c5_gesture_full_reset_witness :
    TimeoutDuesAt (setupState.now + timeoutWindow)
      (dispatchGesture ⟨Button.one, GKind.doubleClick⟩ setupState) ∧
    (run ([100].map (fun T => (T, noInput)))
        (dispatchGesture ⟨Button.one, GKind.doubleClick⟩
          setupState)).timeoutFirings = setupState.timeoutFirings :=
  c5_gesture_full_reset ⟨Button.one, GKind.doubleClick⟩ setupState [100]
    (by constructor
        · rw [setupState_eq_preState]
          exact List.pairwise_cons.mpr ⟨by decide, List.pairwise_singleton _ _⟩
        · rw [setupState_eq_preState]
          decide)
    (by rw [setupState_eq_preState]
        intro tk htk hc
        rcases List.mem_cons.mp htk with h | h
        · subst h; rfl
        · rw [List.mem_singleton] at h
          subst h
          exact absurd hc (by decide))
    (by decide)
